import Mathlib

/-!
Verification of the easyssh server framework (connection lifecycle and
dispatch pipeline) against its specification.

The Go source is shallowly embedded: channels/streams become finite lists,
goroutine bodies become functions producing explicit event traces, and
the external transport library (golang.org/x/crypto/ssh) is modelled at its
interface boundary (handshake results, channel offers, reject codes) as
input data. Durations are in milliseconds.
-/

namespace Easyssh

/-! ### state.go: the `ConnState` enum -/

/-- A ConnState represents the state of a client connection to a server
(state.go). -/
inductive ConnState where
  | StateNew
  | StateHandshake
  | StateActive
  | StateClosed
deriving DecidableEq, Repr

/-- `ConnState.String` from state.go. -/
def ConnState.toLabel : ConnState → String
  | .StateNew => "new"
  | .StateHandshake => "handshake"
  | .StateActive => "active"
  | .StateClosed => "closed"

/-! ### types.go: the request relay

`ssh.Request` (the transport library's out-of-band message) is modelled by
its three fields; the payload is a byte list. The framework's `Request`
embeds it, exactly as the Go struct does. -/

/-- The transport library's `ssh.Request` value (type tag, want-reply flag,
opaque payload). -/
structure SshRequest where
  requestType : String
  wantReply : Bool
  payload : List Nat
deriving DecidableEq, Repr

/-- `Request` from types.go: embeds an `ssh.Request` by value. -/
structure Request where
  request : SshRequest
deriving DecidableEq, Repr

/-- `wrapRequests` from types.go: the forwarding pump reads each `*ssh.Request`
`r` from the inbound stream and sends `&Request{*r}` on the outbound stream,
in order. A finite stream is a list. -/
def wrapRequests (requests : List SshRequest) : List Request :=
  requests.map (fun r => { request := r })

/-- `unwrapRequests` from types.go: the forwarding pump reads each `*Request`
`r` and sends `&r.Request`, in order. -/
def unwrapRequests (requests : List Request) : List SshRequest :=
  requests.map (fun r => r.request)

/-! ### The external transport library's boundary -/

instance {ε α : Type} [DecidableEq ε] [DecidableEq α] :
    DecidableEq (Except ε α) := fun a b =>
  match a, b with
  | .error e, .error f =>
    if h : e = f then .isTrue (by rw [h]) else .isFalse (by simp [h])
  | .error _, .ok _ => .isFalse (by simp)
  | .ok _, .error _ => .isFalse (by simp)
  | .ok x, .ok y =>
    if h : x = y then .isTrue (by rw [h]) else .isFalse (by simp [h])

/-- A private key parsed by the transport library (`ssh.Signer`), opaque. -/
structure PrivateKey where
  keyId : Nat
deriving DecidableEq, Repr

/-- The transport library's `ssh.ServerConfig`, modelled at the boundary:
`AddHostKey` appends to the list of registered host keys. -/
structure ServerConfig where
  hostKeys : List PrivateKey
deriving DecidableEq, Repr

/-- `ssh.RejectionReason` codes from the transport library (RFC 4254). -/
inductive RejectionReason where
  | prohibited
  | connectionFailed
  | unknownChannelType
  | resourceShortage
deriving DecidableEq, Repr

/-! ### Server (part_000): state and AddHostKey -/

/-- The `Server` struct: listen address, host-key count, and the handshake
configuration. The Handler, ConnState hook and ErrorLog fields are modelled
at their points of use (as trace events), since they are behaviour, not
data. -/
structure Server where
  Addr : String
  HostKeyCount : Nat
  ServerConfig : ServerConfig
deriving DecidableEq, Repr

/-- `Server.AddHostKey`: `ioutil.ReadAll(r)` may fail (its outcome is the
`readResult` input); `ssh.ParsePrivateKey` is the external parser, passed as
a function. On success the count is incremented and the key registered with
the config; either failure returns the error with the server unchanged.
Returns (error-or-nil, updated server). -/
def Server.AddHostKey (srv : Server) (readResult : Except String (List Nat))
    (parsePrivateKey : List Nat → Except String PrivateKey) :
    Except String Unit × Server :=
  match readResult with
  | .error e => (.error e, srv)
  | .ok privateBytes =>
    match parsePrivateKey privateBytes with
    | .error e => (.error e, srv)
    | .ok private_ =>
      (.ok (), { srv with
        HostKeyCount := srv.HostKeyCount + 1,
        ServerConfig := { hostKeys := srv.ServerConfig.hostKeys ++ [private_] } })

/-- `ErrServerHasNoHostKeys` (the distinguished error value). -/
def ErrServerHasNoHostKeys : String := "server has no host keys"

/-! ### Server.Serve: the accept loop

The listener is modelled as the finite list of outcomes its successive
`Accept` calls produce: a new raw connection, a temporary `net.Error`, or a
permanent error. `Serve` is the fold of the loop body over that list,
recording the backoff sleeps it performs, the connections it accepts (each
reported `StateNew` and served concurrently), its return value, and whether
the deferred `l.Close()` has run. -/

/-- One outcome of `l.Accept()`. -/
inductive AcceptEvent where
  | success (connId : Nat)
  | tempError (msg : String)
  | permError (msg : String)
deriving DecidableEq, Repr

/-- How a (finite) run of `Serve` ended. -/
inductive ServeOutcome where
  | returnedNoHostKeys
  | returnedAcceptError (msg : String)
  | stillLooping
deriving DecidableEq, Repr

/-- The observable record of a `Serve` run. -/
structure ServeTrace where
  sleeps : List Nat
  accepted : List Nat
  outcome : ServeOutcome
  listenerClosed : Bool
deriving DecidableEq, Repr

/-- The backoff update in `Serve`: `if tempDelay == 0 { tempDelay = 5ms }
else { tempDelay *= 2 }; if tempDelay > 1s { tempDelay = 1s }` (in ms). -/
def nextDelay (tempDelay : Nat) : Nat :=
  let d := if tempDelay = 0 then 5 else tempDelay * 2
  if d > 1000 then 1000 else d

/-- The `for` loop of `Server.Serve`, carrying `tempDelay`. A temporary
accept error sleeps `nextDelay tempDelay` and retries; a successful accept
resets `tempDelay` to 0, reports the connection and serves it concurrently;
a permanent error returns it (the deferred `l.Close()` runs). If the input
is exhausted the loop is still blocked in `Accept` (listener not closed). -/
def serveLoop (tempDelay : Nat) : List AcceptEvent → ServeTrace
  | [] => ⟨[], [], .stillLooping, false⟩
  | .success connId :: rest =>
    let t := serveLoop 0 rest
    ⟨t.sleeps, connId :: t.accepted, t.outcome, t.listenerClosed⟩
  | .tempError _ :: rest =>
    let d := nextDelay tempDelay
    let t := serveLoop d rest
    ⟨d :: t.sleeps, t.accepted, t.outcome, t.listenerClosed⟩
  | .permError e :: _ => ⟨[], [], .returnedAcceptError e, true⟩

/-- `Server.Serve`: `defer l.Close()`; if `HostKeyCount == 0` return
`ErrServerHasNoHostKeys` (deferred close runs); otherwise run the accept
loop with `tempDelay = 0`. -/
def Server.Serve (srv : Server) (events : List AcceptEvent) : ServeTrace :=
  if srv.HostKeyCount = 0 then ⟨[], [], .returnedNoHostKeys, true⟩
  else serveLoop 0 events

/-! Spec-side descriptions used by the backoff claim (C5): the delay for the
`k`-th consecutive temporary failure is `min (5 * 2 ^ k) 1000` ms, the run
counter resetting after each successful accept; a permanent error ends the
loop and is returned. -/

/-- Spec-side sleep sequence: `k` counts consecutive temporary failures. -/
def specSleeps : List AcceptEvent → Nat → List Nat
  | [], _ => []
  | .success _ :: rest, _ => specSleeps rest 0
  | .tempError _ :: rest, k => min (5 * 2 ^ k) 1000 :: specSleeps rest (k + 1)
  | .permError _ :: _, _ => []

/-- Spec-side outcome: the first permanent accept error is returned. -/
def specOutcome : List AcceptEvent → ServeOutcome
  | [] => .stillLooping
  | .permError e :: _ => .returnedAcceptError e
  | .success _ :: rest => specOutcome rest
  | .tempError _ :: rest => specOutcome rest

/-- The value of `tempDelay` after `k` consecutive temporary failures. -/
def delayOf : Nat → Nat
  | 0 => 0
  | k + 1 => min (5 * 2 ^ k) 1000

/-! ### conn.serve: the per-connection state machine (part_000)

`ssh.NewServerConn` (the external handshake) either fails — with `io.EOF`
or another error — or yields an authenticated session: optional
permissions and the finite stream of offered logical channels. Each offer
carries its declared type and the outcome its `Accept()` would produce.
A connection's execution is recorded as a trace of `ConnEvent`s; offers
are identified by their position in the stream. -/

/-- One `ssh.NewChannel` offer from the transport library. -/
structure NewChannelOffer where
  channelType : String
  acceptResult : Except String Nat
deriving DecidableEq, Repr

/-- The outcome of `ssh.NewServerConn(c.rwc, c.server.ServerConfig)`. -/
inductive HandshakeResult where
  | ok (hasPermissions : Bool) (chans : List NewChannelOffer)
  | err (isEOF : Bool) (msg : String)
deriving DecidableEq, Repr

/-- Observable events of one connection's serving. -/
inductive ConnEvent where
  | state (s : ConnState)
  | handshakeErrorLogged (msg : String)
  | discardRequestsPumpStarted
  | rejected (idx : Nat) (code : RejectionReason) (reason : String)
  | handlerDispatched (idx : Nat)
  | panicLogged (remoteAddr : String)
  | socketClosed
deriving DecidableEq, Repr

/-- The `for newChannel := range chans` loop of `conn.serve`: a non-"session"
offer is rejected with `ssh.UnknownChannelType` and the loop continues; a
"session" offer is accepted — on accept error `conn.serve` returns
(abandoning the rest of the stream), otherwise the handler is dispatched in
its own goroutine and the loop continues. `idx` is the position of the head
offer in the original stream. -/
def channelLoop : List NewChannelOffer → Nat → List ConnEvent
  | [], _ => []
  | offer :: rest, idx =>
    if offer.channelType ≠ "session" then
      .rejected idx .unknownChannelType "unknown channel type"
        :: channelLoop rest (idx + 1)
    else
      match offer.acceptResult with
      | .error _ => []
      | .ok _ => .handlerDispatched idx :: channelLoop rest (idx + 1)

/-- The body of `conn.serve` after the deferred recover/close is installed:
emit `StateHandshake`; on handshake error log it unless it is `io.EOF` and
return; on success emit `StateActive`, start the global-request discard
pump, and run the channel loop. -/
def serveBody (hs : HandshakeResult) : List ConnEvent :=
  .state .StateHandshake ::
    match hs with
    | .err isEOF msg => if isEOF then [] else [.handshakeErrorLogged msg]
    | .ok _ chans =>
      .state .StateActive :: .discardRequestsPumpStarted :: channelLoop chans 0

/-- `conn.close`: close the raw socket, then emit `StateClosed`. -/
def conn.close : List ConnEvent := [.socketClosed, .state .StateClosed]

/-- `conn.serve`: the deferred function recovers any panic raised in this
goroutine's body — logging it (with a stack capture bounded to 64KB) and
the remote address — and always runs `c.close()`. A panic is modelled as
cutting the body's trace at an arbitrary point (`panicAfter = some n`). -/
def conn.serve (hs : HandshakeResult) (panicAfter : Option Nat)
    (remoteAddr : String) : List ConnEvent :=
  match panicAfter with
  | none => serveBody hs ++ conn.close
  | some n => (serveBody hs).take n ++ .panicLogged remoteAddr :: conn.close

/-- The connection's full event trace: `Server.Serve` emits `StateNew`
(before `go c.serve`), then `conn.serve` runs. -/
def connTrace (hs : HandshakeResult) (panicAfter : Option Nat)
    (remoteAddr : String) : List ConnEvent :=
  .state .StateNew :: conn.serve hs panicAfter remoteAddr

/-- The state-change callbacks contained in a trace. -/
def stateSeq (events : List ConnEvent) : List ConnState :=
  events.filterMap fun e =>
    match e with
    | .state s => some s
    | _ => none

/-! ### serverHandler.ServeSSH: the dispatch wrapper (part_000)

`go serverHandler{c.server}.ServeSSH(permissions, channel, wrapRequests(requests))`
runs in its own goroutine. Its body picks the server's Handler (or
`DefaultHandler` when nil), invokes it, and — sequentially after the call
returns, with no `defer` — invokes `c.cancelCtx()`. The chosen Handler is
abstracted by its observable behaviour: the opaque actions it performs
(`handlerStep`) and whether it panics instead of returning. The
`Channel.cancelCtx` field is unexported, so no handler action can be the
cancel operation. -/

/-- Events of one dispatch-wrapper invocation. -/
inductive DispatchEvent where
  | handlerInvoked
  | handlerStep (n : Nat)
  | handlerReturned
  | contextCancelled
  | panicEscapesGoroutine
deriving DecidableEq, Repr

/-- `serverHandler.ServeSSH`: invoke the effective Handler; when it returns,
cancel the channel's context. There is no `defer` and no `recover` in this
goroutine: if the Handler panics, the panic escapes the goroutine (ending
the trace) and `cancelCtx` is never reached. -/
def serverHandler.ServeSSH (handlerSteps : List Nat) (handlerPanics : Bool) :
    List DispatchEvent :=
  .handlerInvoked ::
    (handlerSteps.map .handlerStep ++
      if handlerPanics then [.panicEscapesGoroutine]
      else [.handlerReturned, .contextCancelled])

/-- Transcribed from the source: neither `serverHandler.ServeSSH` nor the
`go` statement that spawns it installs a `defer`red `recover`; the recover
in `conn.serve` belongs to a different goroutine and cannot observe a panic
raised here. -/
def serverHandlerRecovers : Bool := false

/-! ## Theorems -/

theorem nextDelay_eq (t : Nat) :
    nextDelay t =
      if (if t = 0 then 5 else t * 2) > 1000 then 1000
      else (if t = 0 then 5 else t * 2) := rfl

theorem nextDelay_delayOf (k : Nat) : nextDelay (delayOf k) = delayOf (k + 1) := by
  cases k with
  | zero => rfl
  | succ k =>
    have h2 : (5 : Nat) * 2 ^ k ≤ 5 * 2 ^ (k + 1) := by
      have : (2 : Nat) ^ k ≤ 2 ^ (k + 1) := Nat.pow_le_pow_right (by omega) (by omega)
      omega
    have hpos : 0 < 5 * 2 ^ k := by positivity
    show nextDelay (min (5 * 2 ^ k) 1000) = min (5 * 2 ^ (k + 1)) 1000
    rcases le_or_lt (5 * 2 ^ k) 1000 with h | h
    · rw [Nat.min_eq_left h, nextDelay_eq, if_neg (by omega : ¬ 5 * 2 ^ k = 0)]
      have hpow : 5 * 2 ^ k * 2 = 5 * 2 ^ (k + 1) := by ring
      rw [hpow]
      rcases le_or_lt (5 * 2 ^ (k + 1)) 1000 with h' | h'
      · rw [if_neg (by omega), Nat.min_eq_left h']
      · rw [if_pos (by omega), Nat.min_eq_right (by omega)]
    · rw [Nat.min_eq_right (le_of_lt h)]
      have hc : nextDelay 1000 = 1000 := by decide
      rw [hc, Nat.min_eq_right (le_of_lt (lt_of_lt_of_le h h2))]

theorem serveLoop_spec (events : List AcceptEvent) (k : Nat) :
    (serveLoop (delayOf k) events).sleeps = specSleeps events k ∧
    (serveLoop (delayOf k) events).outcome = specOutcome events := by
  induction events generalizing k with
  | nil => exact ⟨rfl, rfl⟩
  | cons ev rest ih =>
    cases ev with
    | success connId =>
      have h := ih 0
      simp only [serveLoop, specSleeps, specOutcome]
      exact ⟨h.1, h.2⟩
    | tempError m =>
      have h := ih (k + 1)
      simp only [serveLoop, specSleeps, specOutcome, nextDelay_delayOf k]
      exact ⟨by rw [h.1]; rfl, h.2⟩
    | permError e => exact ⟨rfl, rfl⟩

/-- C5: During `Serve`'s accept loop, the sleep delays for consecutive
temporary accept errors are 5ms, 10ms, 20ms, ..., doubling each consecutive
temporary failure and capped at 1s; the run counter resets after any
successful accept (so the next temporary failure sleeps 5ms again); a
non-temporary accept error terminates the loop and is returned. -/
theorem serve_backoff_spec (srv : Server) (events : List AcceptEvent)
    (h : srv.HostKeyCount ≠ 0) :
    (srv.Serve events).sleeps = specSleeps events 0 ∧
    (srv.Serve events).outcome = specOutcome events := by
  unfold Server.Serve
  rw [if_neg h]
  exact serveLoop_spec events 0

/-- A concrete run exercising C5: two temporary failures (5ms then 10ms),
a successful accept resetting the counter, one more temporary failure
(5ms again), then a permanent error that is returned. -/
theorem serve_backoff_spec_witness :
    ((Server.mk ":ssh" 1 ⟨[]⟩).Serve
        [.tempError "a", .tempError "b", .success 0, .tempError "c",
         .permError "fatal"]).sleeps =
      specSleeps [.tempError "a", .tempError "b", .success 0, .tempError "c",
        .permError "fatal"] 0 ∧
    ((Server.mk ":ssh" 1 ⟨[]⟩).Serve
        [.tempError "a", .tempError "b", .success 0, .tempError "c",
         .permError "fatal"]).outcome =
      specOutcome [.tempError "a", .tempError "b", .success 0, .tempError "c",
        .permError "fatal"] :=
  serve_backoff_spec (Server.mk ":ssh" 1 ⟨[]⟩) _ (by decide)

/-- C4: `Serve` on a server with zero host keys returns the "no host keys"
error with no connection accepted (and no sleeps performed). -/
theorem serve_no_host_keys (srv : Server) (events : List AcceptEvent)
    (h : srv.HostKeyCount = 0) :
    srv.Serve events =
      ⟨[], [], .returnedNoHostKeys, true⟩ := by
  unfold Server.Serve
  rw [if_pos h]

/-- C4 at a concrete input: a fresh server (no keys) offered a successful
accept still returns the error, accepting nothing. -/
theorem serve_no_host_keys_witness :
    (Server.mk ":2022" 0 ⟨[]⟩).Serve [.success 7] =
      ⟨[], [], .returnedNoHostKeys, true⟩ :=
  serve_no_host_keys (Server.mk ":2022" 0 ⟨[]⟩) [.success 7] rfl

theorem serveLoop_closed (tempDelay : Nat) (events : List AcceptEvent)
    (h : (serveLoop tempDelay events).outcome ≠ .stillLooping) :
    (serveLoop tempDelay events).listenerClosed = true := by
  induction events generalizing tempDelay with
  | nil => exact absurd rfl h
  | cons ev rest ih =>
    cases ev with
    | success connId => exact ih 0 h
    | tempError m => exact ih (nextDelay tempDelay) h
    | permError e => rfl

/-- C9: whenever `Serve` returns — the early "no host keys" path included,
the non-temporary accept-error path included — the deferred `l.Close()` has
run, so the listener is closed on every exit path. -/
theorem serve_closes_listener (srv : Server) (events : List AcceptEvent)
    (h : (srv.Serve events).outcome ≠ .stillLooping) :
    (srv.Serve events).listenerClosed = true := by
  unfold Server.Serve at *
  by_cases h0 : srv.HostKeyCount = 0
  · rw [if_pos h0]
  · rw [if_neg h0] at *
    exact serveLoop_closed 0 events h

/-- C9 at a concrete input: a permanent accept error path has the listener
closed on return. -/
theorem serve_closes_listener_witness :
    ((Server.mk ":ssh" 2 ⟨[]⟩).Serve [.success 1, .permError "down"]).listenerClosed
      = true :=
  serve_closes_listener (Server.mk ":ssh" 2 ⟨[]⟩) [.success 1, .permError "down"]
    (by decide)

theorem stateSeq_channelLoop (chans : List NewChannelOffer) (idx : Nat) :
    stateSeq (channelLoop chans idx) = [] := by
  induction chans generalizing idx with
  | nil => rfl
  | cons offer rest ih =>
    unfold channelLoop
    by_cases h : offer.channelType = "session"
    · rw [if_neg (by simpa using h)]
      cases offer.acceptResult with
      | error e => rfl
      | ok n => simpa [stateSeq] using ih (idx + 1)
    · rw [if_pos (by simpa using h)]
      simpa [stateSeq] using ih (idx + 1)

theorem stateSeq_serveBody (hs : HandshakeResult) :
    List.Sublist (stateSeq (serveBody hs))
      [ConnState.StateHandshake, ConnState.StateActive] := by
  cases hs with
  | err isEOF msg =>
    cases isEOF <;> simp [serveBody, stateSeq]
  | ok hasPermissions chans =>
    simp [serveBody, stateSeq]
    intro a ha
    have h := stateSeq_channelLoop chans 0
    simp only [stateSeq] at h
    exact List.filterMap_eq_nil_iff.mp h a ha

/-- C1: for every connection — handshake succeeding, failing, or a panic
cutting the serve body anywhere — the emitted state-callback sequence is a
subsequence of `[New, Handshake, Active, Closed]` in that order (monotone,
nothing repeated) and ends with `Closed`, which is therefore always
eventually emitted via the close path.  The three closed conjuncts exhibit
`Closed` reached directly from `New` (panic before the handshake), from
`Handshake` (handshake failure), and from `Active`. -/
theorem conn_state_machine (hs : HandshakeResult) (panicAfter : Option Nat)
    (remoteAddr : String) :
    List.Sublist (stateSeq (connTrace hs panicAfter remoteAddr))
      [ConnState.StateNew, ConnState.StateHandshake, ConnState.StateActive,
        ConnState.StateClosed] ∧
    (stateSeq (connTrace hs panicAfter remoteAddr)).getLast? =
      some ConnState.StateClosed ∧
    stateSeq (connTrace (.err true "EOF") (some 0) "a") =
      [ConnState.StateNew, ConnState.StateClosed] ∧
    stateSeq (connTrace (.err true "EOF") none "a") =
      [ConnState.StateNew, ConnState.StateHandshake, ConnState.StateClosed] ∧
    stateSeq (connTrace (.ok false []) none "a") =
      [ConnState.StateNew, ConnState.StateHandshake, ConnState.StateActive,
        ConnState.StateClosed] := by
  have hbody : ∃ s, stateSeq (conn.serve hs panicAfter remoteAddr) =
      s ++ [ConnState.StateClosed] ∧
      List.Sublist s [ConnState.StateHandshake, ConnState.StateActive] := by
    cases panicAfter with
    | none =>
      refine ⟨stateSeq (serveBody hs), ?_, stateSeq_serveBody hs⟩
      simp [conn.serve, stateSeq, List.filterMap_append, conn.close]
    | some n =>
      refine ⟨stateSeq ((serveBody hs).take n), ?_, ?_⟩
      · simp [conn.serve, stateSeq, List.filterMap_append, conn.close]
      · exact List.Sublist.trans
          (List.Sublist.filterMap _ ((serveBody hs).take_sublist n))
          (stateSeq_serveBody hs)
  obtain ⟨s, hrepr, hsub⟩ := hbody
  have htrace : stateSeq (connTrace hs panicAfter remoteAddr) =
      ConnState.StateNew :: (s ++ [ConnState.StateClosed]) := by
    simp [connTrace, stateSeq] at hrepr ⊢
    exact hrepr
  refine ⟨?_, ?_, rfl, rfl, rfl⟩
  · rw [htrace]
    exact (hsub.append (List.Sublist.refl [ConnState.StateClosed])).cons₂ _
  · rw [htrace, ← List.cons_append, List.getLast?_concat]

/-- C10: forwarding a finite stream of transport requests through
`wrapRequests` and then `unwrapRequests` returns the original requests,
in order. -/
theorem wrap_unwrap_roundtrip (requests : List SshRequest) :
    unwrapRequests (wrapRequests requests) = requests := by
  unfold unwrapRequests wrapRequests
  rw [List.map_map]
  exact List.map_id'' (fun r => rfl) requests

theorem channelLoop_cons (offer : NewChannelOffer)
    (rest : List NewChannelOffer) (idx : Nat) :
    channelLoop (offer :: rest) idx =
      if offer.channelType ≠ "session" then
        ConnEvent.rejected idx RejectionReason.unknownChannelType
            "unknown channel type"
          :: channelLoop rest (idx + 1)
      else
        match offer.acceptResult with
        | .error _ => []
        | .ok _ =>
          ConnEvent.handlerDispatched idx :: channelLoop rest (idx + 1) := rfl

theorem handlerDispatched_mem (chans : List NewChannelOffer) (idx j : Nat)
    (h : ConnEvent.handlerDispatched j ∈ channelLoop chans idx) :
    idx ≤ j ∧ ∃ o, chans.get? (j - idx) = some o ∧ o.channelType = "session" := by
  induction chans generalizing idx with
  | nil => simp [channelLoop] at h
  | cons o rest ih =>
    rw [channelLoop_cons] at h
    by_cases ht : o.channelType = "session"
    · rw [if_neg (by simpa using ht)] at h
      cases hA : o.acceptResult with
      | error e =>
        rw [hA] at h
        simp at h
      | ok n =>
        rw [hA] at h
        simp only [List.mem_cons] at h
        rcases h with h | h
        · obtain rfl : j = idx := by injection h
          exact ⟨le_refl _, o, by simp, ht⟩
        · obtain ⟨h1, o', hget, hty⟩ := ih (idx + 1) h
          refine ⟨by omega, o', ?_, hty⟩
          rw [show j - idx = (j - (idx + 1)) + 1 by omega]
          simpa using hget
    · rw [if_pos (by simpa using ht)] at h
      simp only [List.mem_cons] at h
      rcases h with h | h
      · exact absurd h (by simp)
      · obtain ⟨h1, o', hget, hty⟩ := ih (idx + 1) h
        refine ⟨by omega, o', ?_, hty⟩
        rw [show j - idx = (j - (idx + 1)) + 1 by omega]
        simpa using hget

/-- C6: a channel offer whose declared type is not "session" is rejected
with code `ssh.UnknownChannelType` and reason "unknown channel type", after
which the loop continues with the remaining offers; and every handler
dispatch in the loop's trace is for an offer whose declared type is
"session" — a non-"session" offer never reaches a Handler. -/
theorem nonsession_rejected (offer : NewChannelOffer)
    (rest chans : List NewChannelOffer) (idx j : Nat) :
    (offer.channelType ≠ "session" →
      channelLoop (offer :: rest) idx =
        ConnEvent.rejected idx RejectionReason.unknownChannelType
            "unknown channel type"
          :: channelLoop rest (idx + 1)) ∧
    (ConnEvent.handlerDispatched j ∈ channelLoop chans idx →
      ∃ o, chans.get? (j - idx) = some o ∧ o.channelType = "session") := by
  constructor
  · intro h
    rw [channelLoop_cons, if_pos (by simpa using h)]
  · intro h
    exact (handlerDispatched_mem chans idx j h).2

/-- C6 at concrete inputs: a "direct-tcpip" offer is rejected and the loop
continues; the only dispatched handler in a mixed stream is for the
"session" offer. -/
theorem nonsession_rejected_witness :
    channelLoop [NewChannelOffer.mk "direct-tcpip" (.ok 0),
        NewChannelOffer.mk "session" (.ok 1)] 0 =
      ConnEvent.rejected 0 RejectionReason.unknownChannelType
          "unknown channel type"
        :: channelLoop [NewChannelOffer.mk "session" (.ok 1)] 1 ∧
    ∃ o, [NewChannelOffer.mk "direct-tcpip" (.ok 0),
        NewChannelOffer.mk "session" (.ok 1)].get? (1 - 0) = some o ∧
      o.channelType = "session" :=
  ⟨(nonsession_rejected (NewChannelOffer.mk "direct-tcpip" (.ok 0))
      [NewChannelOffer.mk "session" (.ok 1)] [] 0 0).1 (by decide),
   (nonsession_rejected (NewChannelOffer.mk "direct-tcpip" (.ok 0)) []
      [NewChannelOffer.mk "direct-tcpip" (.ok 0),
        NewChannelOffer.mk "session" (.ok 1)] 0 1).2 (by decide)⟩

/-- C7: if the handshake on a connection fails, the serve body emits no
`StateActive`, logs the failure exactly when it is not the clean
end-of-stream signal (`io.EOF`), and proceeds directly to the close path:
the socket is closed and then `StateClosed` emitted. -/
theorem handshake_failure_path (isEOF : Bool) (msg remoteAddr : String) :
    conn.serve (.err isEOF msg) none remoteAddr =
      ConnEvent.state ConnState.StateHandshake
        :: ((if isEOF then [] else [ConnEvent.handshakeErrorLogged msg]) ++
          [ConnEvent.socketClosed, ConnEvent.state ConnState.StateClosed]) ∧
    ConnEvent.state ConnState.StateActive ∉
      conn.serve (.err isEOF msg) none remoteAddr ∧
    ConnEvent.handlerDispatched 0 ∉ conn.serve (.err isEOF msg) none remoteAddr := by
  cases isEOF <;>
    exact ⟨rfl, by simp [conn.serve, serveBody, conn.close],
      by simp [conn.serve, serveBody, conn.close]⟩

theorem cancel_not_handlerStep (handlerSteps : List Nat) :
    DispatchEvent.contextCancelled ∉
        handlerSteps.map DispatchEvent.handlerStep ∧
      DispatchEvent.handlerReturned ∉
        handlerSteps.map DispatchEvent.handlerStep := by
  constructor <;>
    · intro h
      rcases List.mem_map.mp h with ⟨n, _, h'⟩
      exact absurd h' (by simp)

/-- C3: for every dispatched session channel whose Handler returns, the
cancel operation runs exactly once, strictly after the Handler invocation
has returned; it never runs while the Handler is still running, and no
Handler action is itself the cancel operation. -/
theorem cancel_once_after_return (handlerSteps : List Nat) :
    (serverHandler.ServeSSH handlerSteps false).count
        DispatchEvent.contextCancelled = 1 ∧
    ∃ pre, serverHandler.ServeSSH handlerSteps false =
        pre ++ [DispatchEvent.handlerReturned, DispatchEvent.contextCancelled] ∧
      DispatchEvent.contextCancelled ∉ pre ∧
      DispatchEvent.handlerReturned ∉ pre := by
  obtain ⟨hc, -⟩ := cancel_not_handlerStep handlerSteps
  constructor
  · unfold serverHandler.ServeSSH
    rw [if_neg (by simp), List.count_cons_of_ne (by simp), List.count_append,
      List.count_eq_zero.mpr hc]
    rfl
  · refine ⟨DispatchEvent.handlerInvoked ::
      handlerSteps.map DispatchEvent.handlerStep, ?_, ?_, ?_⟩
    · unfold serverHandler.ServeSSH
      rw [if_neg (by simp)]
      simp
    · simp [List.mem_map]
    · simp [List.mem_map]

/-- C2 fails on the code: a panic inside a Handler invocation is raised in
the handler goroutine, where nothing recovers; evaluated at the failing
input (a Handler that immediately panics), the dispatch trace ends with the
panic escaping the goroutine — the context is never cancelled, nothing is
logged, and (the panic escaping a goroutine with no recover) the process
aborts, so the connection cannot be relied on to reach `StateClosed`. -/
theorem handler_panic_escapes :
    serverHandler.ServeSSH [] true =
      [DispatchEvent.handlerInvoked, DispatchEvent.panicEscapesGoroutine] ∧
    serverHandlerRecovers = false ∧
    DispatchEvent.contextCancelled ∉ serverHandler.ServeSSH [] true := by
  refine ⟨rfl, rfl, ?_⟩
  decide

/-- C8: `AddHostKey` with a failed read returns that error and leaves the
server (host-key count and configuration) unchanged; with read bytes whose
parse fails it likewise returns the parse error unchanged; with a parsed
key it returns nil, increments the host-key count by exactly one, and
registers the key with the handshake configuration. -/
theorem add_host_key_spec (srv : Server) (e : String) (privateBytes : List Nat)
    (parsePrivateKey : List Nat → Except String PrivateKey) (k : PrivateKey) :
    srv.AddHostKey (.error e) parsePrivateKey = (.error e, srv) ∧
    (parsePrivateKey privateBytes = .error e →
      srv.AddHostKey (.ok privateBytes) parsePrivateKey = (.error e, srv)) ∧
    (parsePrivateKey privateBytes = .ok k →
      srv.AddHostKey (.ok privateBytes) parsePrivateKey =
        (.ok (), { srv with
          HostKeyCount := srv.HostKeyCount + 1,
          ServerConfig :=
            { hostKeys := srv.ServerConfig.hostKeys ++ [k] } })) := by
  refine ⟨rfl, fun h => ?_, fun h => ?_⟩ <;> simp [Server.AddHostKey, h]

/-- C8 at concrete inputs: a successful parse increments the count and
registers the key; a failed read leaves the server unchanged. -/
theorem add_host_key_spec_witness :
    (Server.mk ":ssh" 0 ⟨[]⟩).AddHostKey (.ok [1, 2]) (fun _ => .ok ⟨5⟩) =
      (.ok (), Server.mk ":ssh" 1 ⟨[⟨5⟩]⟩) ∧
    (Server.mk ":ssh" 0 ⟨[]⟩).AddHostKey (.error "read failed")
        (fun _ => .ok ⟨5⟩) =
      (.error "read failed", Server.mk ":ssh" 0 ⟨[]⟩) :=
  ⟨(add_host_key_spec (Server.mk ":ssh" 0 ⟨[]⟩) "x" [1, 2]
      (fun _ => .ok ⟨5⟩) ⟨5⟩).2.2 rfl,
   (add_host_key_spec (Server.mk ":ssh" 0 ⟨[]⟩) "read failed" []
      (fun _ => .ok ⟨5⟩) ⟨5⟩).1⟩

end Easyssh
